import Mathlib

/-!
Verification of the Arch-Package-Dictionary package-search program.

The repository holds two near-identical Rust snapshots of the same tool:
* `source/paru/src/main.rs` — the current snapshot (async adapters, 5-second
  per-source timeouts, terminal-height probe); embedded here with `_src` names.
* `paru/src/main.rs` — the older snapshot (join_all, no timeout, fixed pager
  threshold); embedded here with `_old` names where the two differ.

Strings are modelled as `List Char`; Rust byte indices coincide with character
indices on the ASCII delimiters the code searches for, so the character-level
model is extensionally faithful.  Machine integers are `Nat` with explicit
wrap-around where Rust `usize` arithmetic can wrap.
-/

namespace APD

/-- Character-level rendering of a Lean string literal. -/
def str (s : String) : List Char := s.data

/-- Rust `char::is_whitespace` restricted to the ASCII whitespace the tool
ever meets (space, tab, CR, LF). -/
def isWS (c : Char) : Bool := c.isWhitespace

/-- Rust `str::trim`: drop whitespace from both ends. -/
def trim (s : List Char) : List Char :=
  ((s.dropWhile isWS).reverse.dropWhile isWS).reverse

/-- Rust `str::contains(char)`. -/
def containsC (s : List Char) (c : Char) : Bool := s.any (· = c)

/-- `splitFirst? c s = some (pre, post)` iff `s = pre ++ c :: post` with
`pre` free of `c`; models Rust `splitn(2, c)` when it yields two parts. -/
def splitFirst? (c : Char) : List Char → Option (List Char × List Char)
  | [] => none
  | a :: t =>
    if a = c then some ([], t)
    else (splitFirst? c t).map (fun p => (a :: p.1, p.2))

/-- Index of the first occurrence of `c`, as Rust `str::find` (the code only
calls it on ASCII needles, where byte and character indices agree). -/
def firstIdx? (c : Char) : List Char → Option Nat
  | [] => none
  | a :: t => if a = c then some 0 else (firstIdx? c t).map (· + 1)

/-- Rust slice `s[i..j]`. -/
def sliceCL (s : List Char) (i j : Nat) : List Char := (s.drop i).take (j - i)

/-- Rust `str::starts_with(char)`. -/
def startsWithC (c : Char) : List Char → Bool
  | [] => false
  | a :: _ => a = c

/-- `needle.is_prefix_of hay`, Boolean. -/
def isPrefixC : List Char → List Char → Bool
  | [], _ => true
  | _ :: _, [] => false
  | a :: t, b :: u => a = b && isPrefixC t u

/-- Rust `str::contains(str)`: substring occurrence of `needle` in `hay`. -/
def containsSub (hay needle : List Char) : Bool :=
  isPrefixC needle hay ||
    match hay with
    | [] => false
    | _ :: t => containsSub t needle

/-- Rust `str::to_lowercase` (character-wise; the inputs involved are ASCII). -/
def toLowerC (s : List Char) : List Char := s.map Char.toLower

/-- Rust `str::split(char)`: full split, empty input gives one empty segment. -/
def splitAll (c : Char) : List Char → List (List Char)
  | [] => [[]]
  | a :: t =>
    if a = c then [] :: splitAll c t
    else
      match splitAll c t with
      | [] => [[a]]
      | h :: r => (a :: h) :: r

/-- Strip one trailing `\r`, as Rust `str::lines` does per segment. -/
def stripCR (s : List Char) : List Char :=
  if s.getLast? = some '\r' then s.dropLast else s

/-- Rust `str::lines`: split on `\n`, a trailing newline yields no final empty
line, and a trailing `\r` is stripped from each line. -/
def rustLines (s : List Char) : List (List Char) :=
  let segs := splitAll '\n' s
  (if segs.getLast? = some [] then segs.dropLast else segs).map stripCR

/-- The one domain entity: `struct PackageInfo { name, version, description }`. -/
structure PackageInfo where
  name : List Char
  version : List Char
  description : List Char
deriving Repr, DecidableEq

/-- The default description substituted for a blank or missing line. -/
def noDescr : List Char := str "No description."

/-- The default version for an empty store-source version field. -/
def unknownVer : List Char := str "Unknown"

/-- Version extraction of the current snapshot (`source/paru/src/main.rs`
lines 157–165): if `find('(')` and `find(')')` both hit, with the opening
strictly before the closing and `start + 1 < len`, take the interior slice,
else the remainder verbatim. -/
def extract_version_src (version_part : List Char) : List Char :=
  match firstIdx? '(' version_part, firstIdx? ')' version_part with
  | some start, some stop =>
    if start < stop ∧ start + 1 < version_part.length then
      sliceCL version_part (start + 1) stop
    else version_part
  | _, _ => version_part

/-- Version extraction of the old snapshot (`paru/src/main.rs` lines 115–126):
only when the remainder starts with `'('` and contains `')'` is the interior
taken (guarded by `v_start < v_end`), else the remainder verbatim. -/
def extract_version_old (version_part : List Char) : List Char :=
  if startsWithC '(' version_part ∧ containsC version_part ')' then
    let v_start := (firstIdx? '(' version_part).getD 0 + 1
    let v_end := (firstIdx? ')' version_part).getD version_part.length
    if v_start < v_end then sliceCL version_part v_start v_end
    else version_part
  else version_part

/-- The shared pacman-style scanning loop of `search_pacman` /
`parse_aur_output` in both snapshots.  `isCand` is the candidate test
(`line.contains('/')` for pacman, `line.contains("aur/")` for AUR) and
`extract` the snapshot's version extraction.  A candidate line is split at the
first `'/'`; the part after it is split at the first space into name and
version remainder; a candidate with both parts consumes the following line as
its description (lookahead of one), defaulting to `"No description."` when the
line is missing or blank. -/
def pacman_scan (isCand : List Char → Bool) (extract : List Char → List Char) :
    List (List Char) → List PackageInfo
  | [] => []
  | [line] =>
    if isCand line then
      match splitFirst? '/' line with
      | some (_, after) =>
        match splitFirst? ' ' after with
        | some (nm, verRest) =>
          [{ name := trim nm, version := extract (trim verRest),
             description := noDescr }]
        | none => []
      | none => []
    else []
  | line :: d :: rest2 =>
    if isCand line then
      match splitFirst? '/' line with
      | some (_, after) =>
        match splitFirst? ' ' after with
        | some (nm, verRest) =>
          { name := trim nm, version := extract (trim verRest),
            description := if (trim d).isEmpty then noDescr else trim d } ::
            pacman_scan isCand extract rest2
        | none => pacman_scan isCand extract (d :: rest2)
      | none => pacman_scan isCand extract (d :: rest2)
    else pacman_scan isCand extract (d :: rest2)

/-- `search_pacman` of the current snapshot, at the level of stdout lines. -/
def search_pacman_src : List (List Char) → List PackageInfo :=
  pacman_scan (fun l => containsC l '/') extract_version_src

/-- `search_pacman` of the old snapshot, at the level of stdout lines. -/
def search_pacman_old : List (List Char) → List PackageInfo :=
  pacman_scan (fun l => containsC l '/') extract_version_old

/-- `parse_aur_output` of the current snapshot (candidate lines contain the
substring `"aur/"`). -/
def parse_aur_output_src : List (List Char) → List PackageInfo :=
  pacman_scan (fun l => containsSub l (str "aur/")) extract_version_src

/-- `search_pacman` of the current snapshot on raw stdout text. -/
def search_pacman_src_raw (stdout : List Char) : List PackageInfo :=
  search_pacman_src (rustLines stdout)

/-- `search_pacman` of the old snapshot on raw stdout text. -/
def search_pacman_old_raw (stdout : List Char) : List PackageInfo :=
  search_pacman_old (rustLines stdout)

/-- One iteration of the `search_flatpak` row loop (current snapshot lines
306–338): an empty line is skipped; a line is split on tabs; with at least 4
fields, the trimmed display name must contain the lowered query term
(case-insensitively) for the row to be kept, and the record is then built with
name `"<name> (<application id>)"`, version defaulting to `"Unknown"` and
description to `"No description."` when blank. -/
def process_flatpak_row (term : List Char) (line : List Char) : Option PackageInfo :=
  if line.isEmpty then none
  else
    let parts := splitAll '\t' line
    if 4 ≤ parts.length then
      let name := trim (parts.getD 0 [])
      if containsSub (toLowerC name) (toLowerC term) then
        let application_id := trim (parts.getD 1 [])
        let version :=
          if (trim (parts.getD 2 [])).isEmpty then unknownVer
          else trim (parts.getD 2 [])
        let description :=
          if (trim (parts.getD 3 [])).isEmpty then noDescr
          else trim (parts.getD 3 [])
        some { name := name ++ str " (" ++ application_id ++ str ")",
               version := version, description := description }
      else none
    else none

/-- The parsing stage of `search_flatpak`: the header row is skipped and the
remaining rows are processed by `process_flatpak_row`. -/
def search_flatpak_src (term : List Char) (stdoutLines : List (List Char)) :
    List PackageInfo :=
  (stdoutLines.drop 1).filterMap (process_flatpak_row term)

/-! ### The Aggregator (current snapshot, `search_packages`, lines 48–128)

Each spawned task delivers its `io::Result<Vec<PackageInfo>>` through a
one-shot channel; the aggregator then performs, for each source in turn, a
5-second-bounded `recv`.  The per-source outcome of that bounded wait is one
of: the task's result was delivered (`Ok(Some(r))`), the channel was closed
without a message (`Ok(None)`), or the bound elapsed (`Err(_)`). -/

inductive SourceOutcome where
  | delivered : Except String (List PackageInfo) → SourceOutcome
  | channelClosed : SourceOutcome
  | timedOut : SourceOutcome

/-- The per-source resolution policy, common to the three match expressions of
`search_packages`: a delivered `Ok` is used, every other outcome degrades to
the empty list plus one warning naming the source. -/
def resolve_source (src : String) (o : SourceOutcome) :
    List PackageInfo × List String :=
  match o with
  | .delivered (.ok results) => (results, [])
  | .delivered (.error e) => ([], [src ++ " search failed: " ++ e])
  | .channelClosed => ([], [src ++ " search channel closed unexpectedly"])
  | .timedOut => ([], [src ++ " search timed out"])

/-- `search_packages` of the current snapshot, as a function of the three
per-source wait outcomes: the three match expressions of lines 79–125,
followed by `Ok((pacman_results, aur_results, flatpak_results))`.  The first
component collects the warnings printed, in program order. -/
def search_packages_agg (op oa og : SourceOutcome) :
    List String ×
      Except String (List PackageInfo × List PackageInfo × List PackageInfo) :=
  let pacman_results :=
    match op with
    | .delivered (.ok results) => (results, ([] : List String))
    | .delivered (.error e) => ([], ["Pacman search failed: " ++ e])
    | .channelClosed => ([], ["Pacman search channel closed unexpectedly"])
    | .timedOut => ([], ["Pacman search timed out"])
  let aur_results :=
    match oa with
    | .delivered (.ok results) => (results, ([] : List String))
    | .delivered (.error e) => ([], ["AUR search failed: " ++ e])
    | .channelClosed => ([], ["AUR search channel closed unexpectedly"])
    | .timedOut => ([], ["AUR search timed out"])
  let flatpak_results :=
    match og with
    | .delivered (.ok results) => (results, ([] : List String))
    | .delivered (.error e) => ([], ["Flatpak search failed: " ++ e])
    | .channelClosed => ([], ["Flatpak search channel closed unexpectedly"])
    | .timedOut => ([], ["Flatpak search timed out"])
  (pacman_results.2 ++ aur_results.2 ++ flatpak_results.2,
   .ok (pacman_results.1, aur_results.1, flatpak_results.1))

/-! ### Timed model of the bounded waits

`tokio::time::timeout(5s, rx.recv())` is modelled with explicit clock values:
a task either sends its result at some instant `t` (`some t`, measured in
seconds from aggregation start) or never (`none`).  The channel buffers one
message, so a bounded `recv` started at instant `start` succeeds iff the
message arrives no later than `start + 5`, returning at the arrival instant
(or immediately if already buffered); otherwise it times out at `start + 5`.
The three waits run sequentially in the aggregator task while the three
source tasks run independently of it. -/

def wait_one (start : Nat) (t : Option Nat)
    (res : Except String (List PackageInfo)) : Nat × SourceOutcome :=
  match t with
  | some arrival =>
    if arrival ≤ start + 5 then (max start arrival, .delivered res)
    else (start + 5, .timedOut)
  | none => (start + 5, .timedOut)

/-- The timed aggregator: the three bounded waits of `search_packages` in
program order, each with the same 5-second bound, feeding the per-source
outcomes to the match expressions embedded in `search_packages_agg`. -/
def timed_search_packages (t₁ t₂ t₃ : Option Nat)
    (r₁ r₂ r₃ : Except String (List PackageInfo)) :
    List String ×
      Except String (List PackageInfo × List PackageInfo × List PackageInfo) :=
  let w₁ := wait_one 0 t₁ r₁
  let w₂ := wait_one w₁.1 t₂ r₂
  let w₃ := wait_one w₂.1 t₃ r₃
  search_packages_agg w₁.2 w₂.2 w₃.2

/-! ### The helper-source adapter (`search_aur`, current snapshot lines 186–221)

The adapter's interactions with the outside world — the two `which` probes and
the helper invocations — are modelled by an environment record; each entry is
`Except`-valued because spawning any of those processes can itself fail (the
`?` operators in the source). -/

structure AurEnv where
  whichParu : Except String Bool
  whichYay : Except String Bool
  paruRun : Except String (List (List Char))
  yayRun : Except String (List (List Char))

/-- `search_aur` of the current snapshot: probe for `paru`, else probe for
`yay`, else warn and return `Ok` with an empty list; a found helper's stdout
goes through `parse_aur_output`.  First component: warnings printed. -/
def search_aur_src (env : AurEnv) :
    List String × Except String (List PackageInfo) :=
  match env.whichParu with
  | .error e => ([], .error e)
  | .ok true =>
    match env.paruRun with
    | .error e => ([], .error e)
    | .ok out => ([], .ok (parse_aur_output_src out))
  | .ok false =>
    match env.whichYay with
    | .error e => ([], .error e)
    | .ok true =>
      match env.yayRun with
      | .error e => ([], .error e)
      | .ok out => ([], .ok (parse_aur_output_src out))
    | .ok false =>
      (["No AUR helper found (tried paru and yay). AUR search disabled."],
       .ok [])

/-! ### The Presenter (`print_results_with_pager` / `get_terminal_height`,
current snapshot lines 343–431) -/

def BOLD : List Char := str "\x1B[1m"
def BLUE : List Char := str "\x1B[34m"
def RED : List Char := str "\x1B[31m"
def GREEN : List Char := str "\x1B[32m"
def RESET : List Char := str "\x1B[0m"

/-- `format_package_count`: singular for exactly one. -/
def format_package_count (count : Nat) : List Char :=
  if count = 1 then str "1 package" else str (toString count) ++ str " packages"

/-- `print_category_results`: a source with no records contributes nothing; a
non-empty source gets a header, an `=` underline of length `name.len() + 9`,
and one block per record. -/
def print_category_results (category_name : List Char)
    (results : List PackageInfo) (color : List Char) : List Char :=
  if results.isEmpty then []
  else
    BOLD ++ category_name ++ str " Results:" ++ RESET ++ str "\n" ++
    List.replicate (category_name.length + 9) '=' ++ str "\n" ++
    (results.map (fun package =>
      BOLD ++ color ++ package.name ++ RESET ++ str "\n" ++
      str "  " ++ package.description ++ str "\n" ++
      str "  " ++ BOLD ++ str "Version:" ++ RESET ++ str " " ++
      package.version ++ str "\n\n")).flatten

/-- The full rendered report: summary line with per-source counts, then the
three per-source sections. -/
def render_results (pacman aur flatpak : List PackageInfo) : List Char :=
  BOLD ++ str "Pacman:" ++ RESET ++ str " " ++
    format_package_count pacman.length ++ str " | " ++
  BOLD ++ str "AUR:" ++ RESET ++ str " " ++
    format_package_count aur.length ++ str " | " ++
  BOLD ++ str "Flatpak:" ++ RESET ++ str " " ++
    format_package_count flatpak.length ++ str "\n\n" ++
  print_category_results (str "Pacman") pacman BLUE ++
  print_category_results (str "AUR") aur RED ++
  print_category_results (str "Flatpak") flatpak GREEN

/-- Rust `str::lines().count()`. -/
def count_lines (s : List Char) : Nat := (rustLines s).length

/-- Wrapping `usize` subtraction (`a - b` in release mode), for operands below
`2 ^ 64`. -/
def usize_sub (a b : Nat) : Nat := (a + (2 ^ 64 - b % 2 ^ 64)) % 2 ^ 64

/-- How the rendered text leaves the program: piped into the pager, or printed
directly to stdout. -/
inductive Display where
  | paged : List Char → Display
  | printedDirectly : List Char → Display
deriving DecidableEq

/-- `print_results_with_pager` of the current snapshot, with the two external
probes (terminal geometry, `which less`) as parameters: the full text is
rendered once; the terminal height defaults to 24 when the probe fails; the
pager is used iff the rendered line count exceeds `term_height - 2` (a `usize`
subtraction) and `less` exists, else the same text is printed directly. -/
def print_results_with_pager_src (heightProbe : Option Nat)
    (lessAvailable : Bool) (pacman aur flatpak : List PackageInfo) : Display :=
  let output := render_results pacman aur flatpak
  let term_height := match heightProbe with | some h => h | none => 24
  let use_pager := count_lines output > usize_sub term_height 2
  if use_pager then
    if lessAvailable then .paged output else .printedDirectly output
  else .printedDirectly output

/-! ## Helper lemmas -/

theorem firstIdx_lt_length {c : Char} :
    ∀ {s : List Char} {i : Nat}, firstIdx? c s = some i → i < s.length := by
  intro s
  induction s with
  | nil => intro i h; simp [firstIdx?] at h
  | cons a t ih =>
    intro i h
    simp only [firstIdx?] at h
    by_cases hac : a = c
    · simp [hac] at h
      simp only [List.length_cons]
      omega
    · simp [hac] at h
      obtain ⟨j, hj, hji⟩ := h
      have := ih hj
      simp only [List.length_cons]
      omega

theorem containsC_eq_splitFirst_isSome (c : Char) :
    ∀ s : List Char, containsC s c = (splitFirst? c s).isSome := by
  intro s
  induction s with
  | nil => rfl
  | cons a t ih =>
    by_cases hac : a = c
    · simp [containsC, splitFirst?, hac]
    · have h1 : containsC (a :: t) c = containsC t c := by simp [containsC, hac]
      have h2 : splitFirst? c (a :: t) =
          (splitFirst? c t).map (fun p => (a :: p.1, p.2)) := by
        simp [splitFirst?, hac]
      rw [h1, h2, ih]
      cases splitFirst? c t <;> rfl

theorem containsC_eq_firstIdx_isSome (c : Char) :
    ∀ s : List Char, containsC s c = (firstIdx? c s).isSome := by
  intro s
  induction s with
  | nil => rfl
  | cons a t ih =>
    by_cases hac : a = c
    · simp [containsC, firstIdx?, hac]
    · have h1 : containsC (a :: t) c = containsC t c := by simp [containsC, hac]
      have h2 : firstIdx? c (a :: t) = (firstIdx? c t).map (· + 1) := by
        simp [firstIdx?, hac]
      rw [h1, h2, ih]
      cases firstIdx? c t <;> rfl

theorem startsWith_iff_firstIdx_zero (c : Char) (s : List Char) :
    startsWithC c s = true ↔ firstIdx? c s = some 0 := by
  cases s with
  | nil => simp [startsWithC, firstIdx?]
  | cons a t =>
    by_cases hac : a = c
    · simp [startsWithC, firstIdx?, hac]
    · simp [startsWithC, firstIdx?, hac]

theorem splitFirst_none_of_not_contains {c : Char} {s : List Char}
    (h : containsC s c = false) : splitFirst? c s = none := by
  rw [containsC_eq_splitFirst_isSome] at h
  cases hs : splitFirst? c s with
  | none => rfl
  | some p => rw [hs] at h; simp at h

theorem containsC_of_splitFirst_some {c : Char} {s pre post : List Char}
    (h : splitFirst? c s = some (pre, post)) : containsC s c = true := by
  rw [containsC_eq_splitFirst_isSome, h]
  rfl

/-- A candidate line whose after-slash part has no space yields no record and
consumes only itself, for either snapshot's version extraction. -/
theorem pacman_scan_skip_no_space (extract : List Char → List Char)
    (line : List Char) (rest : List (List Char)) (pre post : List Char)
    (hsplit : splitFirst? '/' line = some (pre, post))
    (hnospace : containsC post ' ' = false) :
    pacman_scan (fun l => containsC l '/') extract (line :: rest) =
      pacman_scan (fun l => containsC l '/') extract rest := by
  have hc : containsC line '/' = true := containsC_of_splitFirst_some hsplit
  have hsp : splitFirst? ' ' post = none := splitFirst_none_of_not_contains hnospace
  cases rest with
  | nil => simp [pacman_scan, hc, hsplit, hsp]
  | cons d rest2 => simp [pacman_scan, hc, hsplit, hsp]

/-! ## The claims -/

/-- Normal form of the aggregator: each of the three match expressions of
`search_packages` is extensionally `resolve_source` at its own outcome, the
return value is always `Ok`, and warnings are concatenated in program order. -/
theorem search_packages_agg_eq (op oa og : SourceOutcome) :
    search_packages_agg op oa og =
      ((resolve_source "Pacman" op).2 ++ (resolve_source "AUR" oa).2 ++
         (resolve_source "Flatpak" og).2,
       .ok ((resolve_source "Pacman" op).1, (resolve_source "AUR" oa).1,
            (resolve_source "Flatpak" og).1)) := by
  rcases op with ⟨e₁ | r₁⟩ | - | - <;> rcases oa with ⟨e₂ | r₂⟩ | - | - <;>
    rcases og with ⟨e₃ | r₃⟩ | - | - <;> rfl

/-- C1: on the pacman-style input line `"core/bash 5.2.15-1 (shell)"`
followed by `"    The GNU Bourne Again shell"`, the pacman-style normalizer
(current snapshot) produces exactly one record, with name `"bash"`, version
`"shell"` (the parenthesized substring wins over the positional version
token) and description `"The GNU Bourne Again shell"`. -/
theorem c1_pacman_paren_example :
    search_pacman_src_raw
        (str "core/bash 5.2.15-1 (shell)\n    The GNU Bourne Again shell") =
      [{ name := str "bash", version := str "shell",
         description := str "The GNU Bourne Again shell" }] := by
  decide

/-- C2: the version remainder of a pacman-style candidate is handled by one
rule — no parenthesis pair present: verbatim; first `'('` strictly before
first `')'`: only the interior substring; first `')'` before first `'('`:
verbatim. -/
theorem c2_version_rule_trichotomy (s : List Char) :
    ((firstIdx? '(' s = none ∨ firstIdx? ')' s = none) →
        extract_version_src s = s) ∧
    (∀ p q, firstIdx? '(' s = some p → firstIdx? ')' s = some q →
      (p < q → extract_version_src s = sliceCL s (p + 1) q) ∧
      (q < p → extract_version_src s = s)) := by
  constructor
  · intro h
    rcases h with h | h
    · cases h2 : firstIdx? ')' s <;> simp [extract_version_src, h, h2]
    · cases h1 : firstIdx? '(' s <;> simp [extract_version_src, h, h1]
  · intro p q hp hq
    have hqlen : q < s.length := firstIdx_lt_length hq
    constructor
    · intro hpq
      simp only [extract_version_src, hp, hq]
      rw [if_pos ⟨hpq, by omega⟩]
    · intro hqp
      simp only [extract_version_src, hp, hq]
      rw [if_neg]
      intro hcon
      omega

/-- Witness for C2: a remainder with no parentheses is kept verbatim; one with
a well-formed pair keeps only the interior; one with the closing paren first
is kept verbatim. -/
theorem c2_version_rule_witness :
    extract_version_src (str "5.2.15-1") = str "5.2.15-1" ∧
    extract_version_src (str "5.2.15-1 (shell)") =
      sliceCL (str "5.2.15-1 (shell)") 10 15 ∧
    extract_version_src (str ")1.0(") = str ")1.0(" :=
  ⟨(c2_version_rule_trichotomy (str "5.2.15-1")).1 (Or.inl (by decide)),
   ((c2_version_rule_trichotomy (str "5.2.15-1 (shell)")).2 9 15
      (by decide) (by decide)).1 (by decide),
   ((c2_version_rule_trichotomy (str ")1.0(")).2 4 0
      (by decide) (by decide)).2 (by decide)⟩

/-- C10: a line with a `'/'` separator but no space after the first `'/'`
produces no record and does not consume the following line, in both
snapshots' pacman-style normalizers. -/
theorem c10_slash_without_space_skipped
    (line : List Char) (rest : List (List Char)) (pre post : List Char)
    (hsplit : splitFirst? '/' line = some (pre, post))
    (hnospace : containsC post ' ' = false) :
    search_pacman_src (line :: rest) = search_pacman_src rest ∧
    search_pacman_old (line :: rest) = search_pacman_old rest :=
  ⟨pacman_scan_skip_no_space extract_version_src line rest pre post hsplit hnospace,
   pacman_scan_skip_no_space extract_version_old line rest pre post hsplit hnospace⟩

/-- Witness for C10: `"repo/name"` is skipped whole and the following line
`"core/a 1"` still becomes a candidate. -/
theorem c10_slash_without_space_witness :
    search_pacman_src [str "repo/name", str "core/a 1", str "d"] =
      search_pacman_src [str "core/a 1", str "d"] ∧
    search_pacman_old [str "repo/name", str "core/a 1", str "d"] =
      search_pacman_old [str "core/a 1", str "d"] :=
  c10_slash_without_space_skipped (str "repo/name") [str "core/a 1", str "d"]
    (str "repo") (str "name") (by decide) (by decide)

/-- C3: the aggregation never fails as a whole — for all three per-source wait
outcomes the return value is `Ok` of a three-sequence result set, each
component is the resolution of its own source's outcome alone (so a failure on
one source cannot affect the other two), and every non-success outcome
(adapter error, channel closed before delivering, timeout) resolves to the
empty sequence plus one warning naming the source. -/
theorem c3_single_source_failure_isolated (op oa og : SourceOutcome) :
    (search_packages_agg op oa og).2 =
      .ok ((resolve_source "Pacman" op).1, (resolve_source "AUR" oa).1,
           (resolve_source "Flatpak" og).1) ∧
    (∀ src r, resolve_source src (.delivered (.ok r)) = (r, [])) ∧
    (∀ src e, resolve_source src (.delivered (.error e)) =
       ([], [src ++ " search failed: " ++ e])) ∧
    (∀ src, resolve_source src .channelClosed =
       ([], [src ++ " search channel closed unexpectedly"])) ∧
    (∀ src, resolve_source src .timedOut =
       ([], [src ++ " search timed out"])) := by
  refine ⟨?_, fun _ _ => rfl, fun _ _ => rfl, fun _ => rfl, fun _ => rfl⟩
  rw [search_packages_agg_eq]

/-- C4: in the timed model of the aggregator, every bounded wait uses the same
5-second bound from its start; a source that never responds is replaced by the
empty sequence with a "timed out" warning; and a source that responds within
5 seconds of aggregation start always has its own result collected, whatever
the other two sources do — a slow source never blocks the others from
reporting. -/
theorem c4_bounded_wait_independent (t₁ t₂ t₃ : Option Nat)
    (r₁ r₂ r₃ : Except String (List PackageInfo)) :
    (∀ start r, wait_one start none r = (start + 5, .timedOut)) ∧
    ∃ pac aur flat warns,
      timed_search_packages t₁ t₂ t₃ r₁ r₂ r₃ = (warns, .ok (pac, aur, flat)) ∧
      (t₁ = none → pac = [] ∧ "Pacman search timed out" ∈ warns) ∧
      (t₂ = none → aur = [] ∧ "AUR search timed out" ∈ warns) ∧
      (t₃ = none → flat = [] ∧ "Flatpak search timed out" ∈ warns) ∧
      (∀ a, t₁ = some a → a ≤ 5 →
        pac = (resolve_source "Pacman" (.delivered r₁)).1) ∧
      (∀ a, t₂ = some a → a ≤ 5 →
        aur = (resolve_source "AUR" (.delivered r₂)).1) ∧
      (∀ a, t₃ = some a → a ≤ 5 →
        flat = (resolve_source "Flatpak" (.delivered r₃)).1) := by
  refine ⟨fun _ _ => rfl, ?_⟩
  have key : timed_search_packages t₁ t₂ t₃ r₁ r₂ r₃ =
      ((resolve_source "Pacman" (wait_one 0 t₁ r₁).2).2 ++
         (resolve_source "AUR" (wait_one (wait_one 0 t₁ r₁).1 t₂ r₂).2).2 ++
         (resolve_source "Flatpak"
           (wait_one (wait_one (wait_one 0 t₁ r₁).1 t₂ r₂).1 t₃ r₃).2).2,
       .ok ((resolve_source "Pacman" (wait_one 0 t₁ r₁).2).1,
            (resolve_source "AUR" (wait_one (wait_one 0 t₁ r₁).1 t₂ r₂).2).1,
            (resolve_source "Flatpak"
              (wait_one (wait_one (wait_one 0 t₁ r₁).1 t₂ r₂).1 t₃ r₃).2).1)) := by
    simp only [timed_search_packages]
    rw [search_packages_agg_eq]
  refine ⟨_, _, _, _, key, ?_, ?_, ?_, ?_, ?_, ?_⟩
  · intro h; subst h
    exact ⟨rfl, by simp [wait_one, resolve_source]⟩
  · intro h; subst h
    exact ⟨rfl, by simp [wait_one, resolve_source]⟩
  · intro h; subst h
    exact ⟨rfl, by simp [wait_one, resolve_source]⟩
  · intro a h ha; subst h
    simp only [wait_one]
    rw [if_pos (by omega)]
  · intro a h ha; subst h
    simp only [wait_one]
    rw [if_pos (by omega)]
  · intro a h ha; subst h
    simp only [wait_one]
    rw [if_pos (by omega)]

/-- Witness for C4: with an unresponsive pacman source and prompt AUR and
flatpak sources, the aggregator still returns `Ok`, with an empty pacman
sequence, a "timed out" warning, and the other two sources' own results. -/
theorem c4_bounded_wait_witness :
    (timed_search_packages none (some 3) (some 2)
        (.ok []) (.ok [{ name := str "pkg", version := str "1.0",
                         description := noDescr }]) (.ok [])).2 =
      .ok ([], [{ name := str "pkg", version := str "1.0",
                  description := noDescr }], []) ∧
    "Pacman search timed out" ∈
      (timed_search_packages none (some 3) (some 2)
        (.ok []) (.ok [{ name := str "pkg", version := str "1.0",
                         description := noDescr }]) (.ok [])).1 := by
  obtain ⟨-, pac, aur, flat, warns, heq, h₁, -, -, -, h₅, h₆⟩ :=
    c4_bounded_wait_independent none (some 3) (some 2)
      (.ok []) (.ok [{ name := str "pkg", version := str "1.0",
                       description := noDescr }]) (.ok [])
  rw [heq]
  exact ⟨by simp [(h₁ rfl).1, h₅ 3 rfl (by omega), h₆ 2 rfl (by omega),
                  resolve_source],
         (h₁ rfl).2⟩

/-- C8: when neither `paru` nor `yay` exists, the helper-source adapter
returns `Ok` with an empty sequence after one non-fatal warning, and the
aggregation of that outcome still returns `Ok` with the other two sources
resolved from their own outcomes. -/
theorem c8_no_helper_ok_empty (env : AurEnv)
    (hp : env.whichParu = .ok false) (hy : env.whichYay = .ok false) :
    search_aur_src env =
      (["No AUR helper found (tried paru and yay). AUR search disabled."],
       .ok []) ∧
    ∀ op og,
      (search_packages_agg op (.delivered (search_aur_src env).2) og).2 =
        .ok ((resolve_source "Pacman" op).1, [],
             (resolve_source "Flatpak" og).1) := by
  have h1 : search_aur_src env =
      (["No AUR helper found (tried paru and yay). AUR search disabled."],
       .ok []) := by
    simp [search_aur_src, hp, hy]
  refine ⟨h1, ?_⟩
  intro op og
  rw [h1, search_packages_agg_eq]
  rfl

/-- Witness for C8: a concrete environment with neither helper installed. -/
theorem c8_no_helper_witness :
    search_aur_src ⟨.ok false, .ok false, .ok [], .ok []⟩ =
      (["No AUR helper found (tried paru and yay). AUR search disabled."],
       .ok []) ∧
    (search_packages_agg .timedOut
        (.delivered (search_aur_src ⟨.ok false, .ok false, .ok [], .ok []⟩).2)
        (.delivered (.error "boom"))).2 =
      .ok ((resolve_source "Pacman" .timedOut).1, [],
           (resolve_source "Flatpak" (.delivered (.error "boom"))).1) := by
  obtain ⟨h1, h2⟩ :=
    c8_no_helper_ok_empty ⟨.ok false, .ok false, .ok [], .ok []⟩ rfl rfl
  exact ⟨h1, h2 .timedOut (.delivered (.error "boom"))⟩

/-- C6: a store-source row with at least 4 tab-separated fields is kept iff
its trimmed display name, lowered, contains the lowered query term —
independently of the other fields — and a kept record has name
`"<name> (<application id>)"`, version defaulting to `"Unknown"` and
description to `"No description."`; kept rows land in the adapter's result. -/
theorem c6_flatpak_name_filter (term row : List Char)
    (h4 : 4 ≤ (splitAll '\t' row).length) :
    ((process_flatpak_row term row).isSome = true ↔
      containsSub (toLowerC (trim ((splitAll '\t' row).getD 0 [])))
        (toLowerC term) = true) ∧
    (∀ r, process_flatpak_row term row = some r →
      r.name = trim ((splitAll '\t' row).getD 0 []) ++ str " (" ++
        trim ((splitAll '\t' row).getD 1 []) ++ str ")" ∧
      r.version = (if (trim ((splitAll '\t' row).getD 2 [])).isEmpty
        then unknownVer else trim ((splitAll '\t' row).getD 2 [])) ∧
      r.description = (if (trim ((splitAll '\t' row).getD 3 [])).isEmpty
        then noDescr else trim ((splitAll '\t' row).getD 3 []))) ∧
    (∀ rows r, process_flatpak_row term row = some r → row ∈ rows.drop 1 →
      r ∈ search_flatpak_src term rows) := by
  have hne : row.isEmpty = false := by
    cases row with
    | nil => simp [splitAll] at h4
    | cons a t => rfl
  refine ⟨?_, ?_, ?_⟩
  · simp only [process_flatpak_row, hne, Bool.false_eq_true, if_false,
               if_pos h4]
    by_cases hc : containsSub (toLowerC (trim ((splitAll '\t' row).getD 0 [])))
        (toLowerC term) = true
    · simp [hc]
    · simp [hc]
  · intro r hr
    simp only [process_flatpak_row, hne, Bool.false_eq_true, if_false,
               if_pos h4] at hr
    split at hr
    · injection hr with hr
      subst hr
      exact ⟨rfl, rfl, rfl⟩
    · exact absurd hr (by simp)
  · intro rows r hsome hmem
    simp only [search_flatpak_src]
    exact List.mem_filterMap.mpr ⟨row, hmem, hsome⟩

/-- Witness for C6: the row `"GIMP\torg.gimp.GIMP\t\tImage editor"` matches
the query `"gimp"` case-insensitively and yields the composed record with the
`"Unknown"` version default. -/
theorem c6_flatpak_name_filter_witness :
    (process_flatpak_row (str "gimp")
        (str "GIMP\torg.gimp.GIMP\t\tImage editor")).isSome = true ∧
    { name := str "GIMP (org.gimp.GIMP)", version := unknownVer,
      description := str "Image editor" } ∈
      search_flatpak_src (str "gimp")
        [str "Name\tApplication ID\tVersion\tDescription",
         str "GIMP\torg.gimp.GIMP\t\tImage editor"] := by
  obtain ⟨hiff, -, hmem⟩ :=
    c6_flatpak_name_filter (str "gimp")
      (str "GIMP\torg.gimp.GIMP\t\tImage editor") (by decide)
  exact ⟨hiff.mpr (by decide),
         hmem [str "Name\tApplication ID\tVersion\tDescription",
               str "GIMP\torg.gimp.GIMP\t\tImage editor"]
           { name := str "GIMP (org.gimp.GIMP)", version := unknownVer,
             description := str "Image editor" }
           (by decide) (by decide)⟩

/-- Decision rule of the Presenter, for a geometry-probe value in the sane
`usize` range (so the wrapping subtraction agrees with truncated
subtraction). -/
theorem print_pager_decision (probe : Option Nat) (less : Bool)
    (p a f : List PackageInfo) (h2 : 2 ≤ probe.getD 24)
    (hlt : probe.getD 24 < 2 ^ 64) :
    (print_results_with_pager_src probe less p a f =
        .paged (render_results p a f) ↔
      (less = true ∧
        count_lines (render_results p a f) > probe.getD 24 - 2)) ∧
    ((less = false ∨
        ¬ count_lines (render_results p a f) > probe.getD 24 - 2) →
      print_results_with_pager_src probe less p a f =
        .printedDirectly (render_results p a f)) := by
  cases probe with
  | none =>
    simp only [Option.getD] at *
    have hH : usize_sub 24 2 = 24 - 2 := by simp only [usize_sub]; omega
    simp only [print_results_with_pager_src, hH]
    cases less <;>
      by_cases hgt : count_lines (render_results p a f) > 24 - 2 <;>
      simp [hgt]
  | some v =>
    simp only [Option.getD] at *
    have hH : usize_sub v 2 = v - 2 := by simp only [usize_sub]; omega
    simp only [print_results_with_pager_src, hH]
    cases less <;>
      by_cases hgt : count_lines (render_results p a f) > v - 2 <;>
      simp [hgt]

/-- C7: the rendered text is piped into the pager exactly when `less` exists
and the rendered line count exceeds (terminal height − 2), the height
defaulting to 24 when the probe fails; in every other case — small output, or
no pager available regardless of size — the identical rendered text is
printed directly. -/
theorem c7_pager_threshold (heightProbe : Option Nat) (lessAvailable : Bool)
    (pacman aur flatpak : List PackageInfo)
    (hh : ∀ v, heightProbe = some v → 2 ≤ v ∧ v < 2 ^ 64) :
    (print_results_with_pager_src heightProbe lessAvailable pacman aur flatpak =
        .paged (render_results pacman aur flatpak) ↔
      (lessAvailable = true ∧
        count_lines (render_results pacman aur flatpak) >
          heightProbe.getD 24 - 2)) ∧
    ((lessAvailable = false ∨
        ¬ count_lines (render_results pacman aur flatpak) >
            heightProbe.getD 24 - 2) →
      print_results_with_pager_src heightProbe lessAvailable pacman aur flatpak =
        .printedDirectly (render_results pacman aur flatpak)) := by
  have hb : 2 ≤ heightProbe.getD 24 ∧ heightProbe.getD 24 < 2 ^ 64 := by
    cases hp : heightProbe with
    | none => exact ⟨by norm_num, by norm_num⟩
    | some v => simpa using hh v hp
  exact print_pager_decision heightProbe lessAvailable pacman aur flatpak
    hb.1 hb.2

/-- Witness for C7: probe failure and no pager — the report for an empty
result set is printed directly. -/
theorem c7_pager_threshold_witness :
    (print_results_with_pager_src none false [] [] [] =
        .paged (render_results [] [] []) ↔
      (false = true ∧
        count_lines (render_results [] [] []) > (none : Option Nat).getD 24 - 2)) ∧
    ((false = false ∨
        ¬ count_lines (render_results [] [] []) > (none : Option Nat).getD 24 - 2) →
      print_results_with_pager_src none false [] [] [] =
        .printedDirectly (render_results [] [] [])) :=
  c7_pager_threshold none false [] [] [] (fun _ h => nomatch h)

/-- Every record the pacman-style scan emits has a non-empty description:
either the default `"No description."` or a non-blank trimmed line. -/
theorem pacman_scan_descr_ne (isCand : List Char → Bool)
    (extract : List Char → List Char) :
    ∀ lines r, r ∈ pacman_scan isCand extract lines → r.description ≠ []
  | [], r, h => by simp [pacman_scan] at h
  | [line], r, h => by
    simp only [pacman_scan] at h
    split at h
    · split at h
      · split at h
        · simp at h
          subst h
          simp [noDescr, str]
        · simp at h
      · simp at h
    · simp at h
  | line :: d :: rest2, r, h => by
    simp only [pacman_scan] at h
    split at h
    · split at h
      · split at h
        · simp only [List.mem_cons] at h
          rcases h with rfl | h
          · by_cases hd : (trim d).isEmpty = true
            · simp only [hd, if_true]
              simp [noDescr, str]
            · simp only [hd, Bool.false_eq_true, if_false]
              intro he
              exact hd (by rw [he]; rfl)
          · exact pacman_scan_descr_ne isCand extract rest2 r h
        · exact pacman_scan_descr_ne isCand extract (d :: rest2) r h
      · exact pacman_scan_descr_ne isCand extract (d :: rest2) r h
    · exact pacman_scan_descr_ne isCand extract (d :: rest2) r h

/-- Every record the store-style row processing emits has all three fields
non-empty. -/
theorem process_flatpak_row_fields_ne (term row : List Char) (r : PackageInfo)
    (h : process_flatpak_row term row = some r) :
    r.name ≠ [] ∧ r.version ≠ [] ∧ r.description ≠ [] := by
  simp only [process_flatpak_row] at h
  split at h
  · exact absurd h (by simp)
  · split at h
    · split at h
      · injection h with h
        subst h
        refine ⟨?_, ?_, ?_⟩
        · intro he
          have hlen := congrArg List.length he
          simp only [List.length_append, List.length_nil] at hlen
          have h2 : (str " (").length = 2 := rfl
          omega
        · by_cases hv : (trim ((splitAll '\t' row).getD 2 [])).isEmpty = true
          · simp only [hv, if_true]
            simp [unknownVer, str]
          · simp only [hv, Bool.false_eq_true, if_false]
            intro he
            exact hv (by rw [he]; rfl)
        · by_cases hd : (trim ((splitAll '\t' row).getD 3 [])).isEmpty = true
          · simp only [hd, if_true]
            simp [noDescr, str]
          · simp only [hd, Bool.false_eq_true, if_false]
            intro he
            exact hd (by rw [he]; rfl)
      · exact absurd h (by simp)
    · exact absurd h (by simp)

/-- Counterexample to C5: the pacman-style candidate `"a/ b"` — a space right
after the slash — parses to a record whose name is the empty string, so not
every record of every normalizer has all three fields non-empty. -/
theorem c5_counterexample_empty_name :
    search_pacman_src [str "a/ b", str "desc"] =
      [{ name := [], version := str "b", description := str "desc" }] ∧
    ¬ (∀ r ∈ search_pacman_src [str "a/ b", str "desc"], r.name ≠ []) := by
  constructor
  · decide
  · intro hall
    exact hall { name := [], version := str "b", description := str "desc" }
      (by decide) rfl

/-- C5 (amended): the description of every record of every normalizer is
non-empty, and store-style records additionally have non-empty name and
version; pacman/AUR-style names and versions are copied verbatim and can be
empty. -/
theorem c5_amended_nonempty_fields (lines : List (List Char)) (term : List Char) :
    (∀ r ∈ search_pacman_src lines, r.description ≠ []) ∧
    (∀ r ∈ search_pacman_old lines, r.description ≠ []) ∧
    (∀ r ∈ parse_aur_output_src lines, r.description ≠ []) ∧
    (∀ r ∈ search_flatpak_src term lines,
      r.name ≠ [] ∧ r.version ≠ [] ∧ r.description ≠ []) := by
  refine ⟨fun r h => pacman_scan_descr_ne _ _ lines r h,
          fun r h => pacman_scan_descr_ne _ _ lines r h,
          fun r h => pacman_scan_descr_ne _ _ lines r h, ?_⟩
  intro r h
  simp only [search_flatpak_src] at h
  obtain ⟨row, hrow, hsome⟩ := List.mem_filterMap.mp h
  exact process_flatpak_row_fields_ne term row r hsome

/-- Witness for the amended C5: concrete records from the pacman scan and the
flatpak row processing. -/
theorem c5_amended_nonempty_witness :
    (PackageInfo.mk (str "a") (str "1") noDescr).description ≠ [] ∧
    ((PackageInfo.mk (str "GIMP (org.gimp.GIMP)") unknownVer
        (str "Image editor")).name ≠ [] ∧
      (PackageInfo.mk (str "GIMP (org.gimp.GIMP)") unknownVer
        (str "Image editor")).version ≠ [] ∧
      (PackageInfo.mk (str "GIMP (org.gimp.GIMP)") unknownVer
        (str "Image editor")).description ≠ []) :=
  ⟨(c5_amended_nonempty_fields [str "core/a 1", str ""] (str "x")).1
      { name := str "a", version := str "1", description := noDescr }
      (by decide),
   (c5_amended_nonempty_fields
        [str "Name\tApplication ID\tVersion\tDescription",
         str "GIMP\torg.gimp.GIMP\t\tImage editor"] (str "gimp")).2.2.2
      { name := str "GIMP (org.gimp.GIMP)", version := unknownVer,
        description := str "Image editor" }
      (by decide)⟩

/-- The pacman-style scans of the two snapshots differ only in version
extraction: names and descriptions always agree, record for record. -/
theorem pacman_scan_map_nd (isCand : List Char → Bool)
    (e₁ e₂ : List Char → List Char) :
    ∀ lines,
      (pacman_scan isCand e₁ lines).map (fun r => (r.name, r.description)) =
        (pacman_scan isCand e₂ lines).map (fun r => (r.name, r.description))
  | [] => rfl
  | [line] => by
    simp only [pacman_scan]
    split
    · split
      · split <;> rfl
      · rfl
    · rfl
  | line :: d :: rest2 => by
    simp only [pacman_scan]
    split
    · split
      · split
        · simp only [List.map_cons, pacman_scan_map_nd isCand e₁ e₂ rest2]
        · exact pacman_scan_map_nd isCand e₁ e₂ (d :: rest2)
      · exact pacman_scan_map_nd isCand e₁ e₂ (d :: rest2)
    · exact pacman_scan_map_nd isCand e₁ e₂ (d :: rest2)

/-- The two snapshots' version extractions agree whenever the remainder has no
parenthesis pair, or a malformed one, or a well-formed one starting at
position 0 with a non-empty interior. -/
theorem extract_version_agree (s : List Char) :
    ((firstIdx? '(' s = none ∨ firstIdx? ')' s = none) →
      extract_version_old s = extract_version_src s) ∧
    (∀ p q, firstIdx? '(' s = some p → firstIdx? ')' s = some q →
      (q < p ∨ (p = 0 ∧ 1 < q)) →
      extract_version_old s = extract_version_src s) := by
  constructor
  · intro h
    have hsrc : extract_version_src s = s := by
      rcases h with h | h
      · cases h2 : firstIdx? ')' s <;> simp [extract_version_src, h, h2]
      · cases h1 : firstIdx? '(' s <;> simp [extract_version_src, h, h1]
    have hold : extract_version_old s = s := by
      unfold extract_version_old
      rw [if_neg]
      rintro ⟨h1, h2⟩
      rcases h with h | h
      · rw [startsWith_iff_firstIdx_zero, h] at h1
        exact Option.noConfusion h1
      · rw [containsC_eq_firstIdx_isSome, h] at h2
        exact Bool.noConfusion h2
    rw [hold, hsrc]
  · intro p q hp hq hcase
    have hqlen : q < s.length := firstIdx_lt_length hq
    rcases hcase with hqp | ⟨hp0, h1q⟩
    · have hsrc : extract_version_src s = s := by
        simp only [extract_version_src, hp, hq]
        rw [if_neg]
        intro hcon
        omega
      have hold : extract_version_old s = s := by
        unfold extract_version_old
        rw [if_neg]
        rintro ⟨h1, -⟩
        rw [startsWith_iff_firstIdx_zero, hp] at h1
        injection h1 with h1
        omega
      rw [hold, hsrc]
    · subst hp0
      have hsrc : extract_version_src s = sliceCL s 1 q := by
        simp only [extract_version_src, hp, hq]
        rw [if_pos ⟨by omega, by omega⟩]
      have hold : extract_version_old s = sliceCL s 1 q := by
        unfold extract_version_old
        rw [if_pos ⟨(startsWith_iff_firstIdx_zero '(' s).mpr hp,
                    by rw [containsC_eq_firstIdx_isSome, hq]; rfl⟩]
        simp only [hp, hq, Option.getD_some, Nat.zero_add]
        rw [if_pos h1q]
      rw [hold, hsrc]

/-- Counterexample to C9: on `"core/bash 5.2.15-1 (shell)"` plus a description
line, the current snapshot extracts the parenthesized `"shell"` while the old
snapshot keeps `"5.2.15-1 (shell)"` verbatim, so the two `search_pacman`
parsers are not extensionally equal. -/
theorem c9_counterexample_version_differs :
    search_pacman_src_raw (str "core/bash 5.2.15-1 (shell)\n desc") ≠
      search_pacman_old_raw (str "core/bash 5.2.15-1 (shell)\n desc") := by
  decide

/-- C9 (amended): the two snapshots' `search_pacman` parsers produce the same
sequence of names and descriptions for every input; versions also agree when
the version remainder has no parenthesis pair, or a malformed one (closing
first), or one whose opening paren is the very first character with the
closing not immediately after — but not in general (the current snapshot
extracts any later well-formed parenthesized group, the old keeps it
verbatim). -/
theorem c9_amended_names_descriptions_equal :
    (∀ lines,
      (search_pacman_old lines).map (fun r => (r.name, r.description)) =
        (search_pacman_src lines).map (fun r => (r.name, r.description))) ∧
    (∀ s, ((firstIdx? '(' s = none ∨ firstIdx? ')' s = none) →
        extract_version_old s = extract_version_src s) ∧
      (∀ p q, firstIdx? '(' s = some p → firstIdx? ')' s = some q →
        (q < p ∨ (p = 0 ∧ 1 < q)) →
        extract_version_old s = extract_version_src s)) :=
  ⟨fun lines =>
    pacman_scan_map_nd (fun l => containsC l '/')
      extract_version_old extract_version_src lines,
   fun s => extract_version_agree s⟩

/-- Witness for the amended C9: the C1 input has equal names and descriptions
in both snapshots, and a remainder `"(now)"` gets the same version in both. -/
theorem c9_amended_names_descriptions_witness :
    (search_pacman_old [str "core/bash 5.2.15-1 (shell)", str " d"]).map
        (fun r => (r.name, r.description)) =
      (search_pacman_src [str "core/bash 5.2.15-1 (shell)", str " d"]).map
        (fun r => (r.name, r.description)) ∧
    extract_version_old (str "(now)") = extract_version_src (str "(now)") := by
  obtain ⟨h1, h2⟩ := c9_amended_names_descriptions_equal
  exact ⟨h1 [str "core/bash 5.2.15-1 (shell)", str " d"],
         (h2 (str "(now)")).2 0 4 (by decide) (by decide)
           (Or.inr ⟨rfl, by omega⟩)⟩

end APD
